import Mathlib

/-!
Verification of the sandboxed pseudo-shell in `terminal_core.py`.

The embedding models:
  * path strings as lists of components (`splitComps`), with the lexical
    normalization performed by `pathlib.Path.resolve` on a symlink-free
    host filesystem (`normJoin`);
  * the host filesystem as a flat association list from absolute paths
    (component lists) to entries (`FS`), with the `os`/`shutil` primitives
    the program calls (`fsMkdirp`, `fsErase`, `fsRemoveSubtree`, ...);
  * the `Terminal` class with its `root`, `cwd` and the filesystem; host
    telemetry (`psutil`, `stat` metadata) is abstracted as a `Host` oracle,
    since no claim depends on its contents;
  * `shlex.split` (POSIX mode, as `Terminal.run` calls it) including its
    `ValueError` failures on malformed quoting, kept as a distinct result
    kind (`RunResult.valueError`) because `Terminal.run` tokenizes outside
    its try block and such errors are not converted to `TerminalError`.

Errors raised inside `Terminal.run`'s try block (both `TerminalError` and
host `OSError`s converted by the catch-all `except Exception`) surface as
`RunResult.terminalError` with the message string `str(e)`; the model's
operations return `Except String` whose error string is that message.
-/

/-- Segments of a character list split on `/`. -/
def splitSeg (cur : String) : List Char → List String
  | [] => [cur]
  | c :: cs => if c = '/' then cur :: splitSeg "" cs else splitSeg (cur.push c) cs

/-- Components of a path string: split on `/`, dropping empty components and
`.` (as `pathlib.PurePosixPath` does); `..` components are kept. -/
def splitComps (s : String) : List String :=
  (splitSeg "" s.toList).filter (fun c => !(decide (c = "" ∨ c = ".")))

/-- Model of `Path.is_absolute` for POSIX path strings. -/
def isAbsolute (s : String) : Bool :=
  match s.toList with
  | '/' :: _ => true
  | _ => false

/-- Lexical normalization of `..` components against an absolute base, as
`Path.resolve` performs on a symlink-free filesystem: `..` pops the last
component and is a no-op at the filesystem root. -/
def normJoin (base : List String) : List String → List String
  | [] => base
  | c :: rest =>
      if c = ".." then normJoin base.dropLast rest
      else normJoin (base ++ [c]) rest

/-- Join strings with a separator (structural model of `str.join`). -/
def joinSep (sep : String) : List String → String
  | [] => ""
  | [x] => x
  | x :: xs => x ++ sep ++ joinSep sep xs

/-- Render an absolute component list as a path string. -/
def absStr (p : List String) : String :=
  "/" ++ joinSep "/" p

/-- Model of `str(p.relative_to(root))` for `root <+: p`: the components of
`p` below `root`, with the empty remainder rendered as `.`. -/
def relStr (root p : List String) : String :=
  let rel := p.drop root.length
  if rel = [] then "." else joinSep "/" rel

/-- CPython renders the filename of an `OSError` in single quotes. -/
def squote (s : String) : String :=
  "\x27" ++ s ++ "\x27"

/-- A filesystem entry: a regular file with its text content, or a directory.
Metadata (mtime, mode) is not modeled. -/
inductive Entry where
  | fileE (content : String)
  | dirE
deriving DecidableEq

/-- The host filesystem as a flat association list from absolute paths to
entries. The empty path `[]` is the filesystem root `/`, which always exists
and is a directory. -/
abbrev FS := List (List String × Entry)

/-- First entry stored at `p`, if any. -/
def fsLookup (fs : FS) (p : List String) : Option Entry :=
  (fs.find? (fun e => decide (e.1 = p))).map (fun e => e.2)

/-- Model of `Path.exists`. -/
def fsExists (fs : FS) (p : List String) : Bool :=
  p.isEmpty || (fsLookup fs p).isSome

/-- Model of `Path.is_dir`. -/
def fsIsDir (fs : FS) (p : List String) : Bool :=
  p.isEmpty || decide (fsLookup fs p = some Entry.dirE)

/-- Model of `Path.is_file` (used for the error cases of `os.mkdir`). -/
def fsIsFile (fs : FS) (p : List String) : Bool :=
  match fsLookup fs p with
  | some (Entry.fileE _) => true
  | _ => false

/-- Remove the entry stored at exactly `p`. -/
def fsErase (fs : FS) (p : List String) : FS :=
  fs.filter (fun e => !(decide (e.1 = p)))

/-- Store `v` at `p`, replacing any previous entry. -/
def fsInsert (fs : FS) (p : List String) (v : Entry) : FS :=
  (p, v) :: fsErase fs p

/-- Model of `shutil.rmtree`: drop `p` and every path below it. -/
def fsRemoveSubtree (fs : FS) (p : List String) : FS :=
  fs.filter (fun e => !(p.isPrefixOf e.1))

/-- Whether any entry lies strictly below `p`: on a well-formed filesystem
this is exactly `os.rmdir`'s non-emptiness condition for a directory. -/
def fsHasDesc (fs : FS) (p : List String) : Bool :=
  fs.any (fun e => p.isPrefixOf e.1 && !(decide (e.1 = p)))

/-- Create every path of `qs` that does not exist yet as a directory. -/
def addDirs (fs : FS) (qs : List (List String)) : FS :=
  qs.foldl (fun acc q => if fsExists acc q then acc else fsInsert acc q Entry.dirE) fs

/-- Model of `Path.mkdir(parents=True, exist_ok=True)`: fails with `ENOTDIR`
when a proper prefix of `p` is a regular file, with `EEXIST` when `p` itself
is a regular file (`exist_ok` only tolerates an existing directory), and
otherwise creates every missing prefix of `p` as a directory. -/
def fsMkdirp (fs : FS) (p : List String) : Except String FS :=
  if p.inits.any (fun q => (!(decide (q = p))) && fsIsFile fs q) then
    Except.error ("[Errno 20] Not a directory: " ++ squote (absStr p))
  else if fsIsFile fs p then
    Except.error ("[Errno 17] File exists: " ++ squote (absStr p))
  else
    Except.ok (addDirs fs p.inits)

/-- Direct children of `p` with a directory flag, for `Path.iterdir`. -/
def fsChildren (fs : FS) (p : List String) : List (String × Bool) :=
  fs.filterMap (fun e =>
    if ¬ (e.1 = []) ∧ e.1.dropLast = p then
      some (e.1.getLastD "", decide (e.2 = Entry.dirE))
    else none)

/-- Lexicographic order on character lists, by code point. -/
def lexLt : List Char → List Char → Bool
  | [], [] => false
  | [], _ :: _ => true
  | _ :: _, [] => false
  | a :: as, b :: bs => if a < b then true else if b < a then false else lexLt as bs

/-- Python string comparison: lexicographic by code point. -/
def strLt (a b : String) : Bool :=
  lexLt a.toList b.toList

/-- Insertion into a list of (name, isDir) pairs ordered by name. -/
def insertByName (x : String × Bool) : List (String × Bool) → List (String × Bool)
  | [] => [x]
  | y :: ys => if strLt x.1 y.1 then x :: y :: ys else y :: insertByName x ys

/-- Sort directory entries by name, as `sorted(p.iterdir())` does. -/
def sortByName (l : List (String × Bool)) : List (String × Bool) :=
  l.foldr insertByName []

/-- Host telemetry oracle: the outputs of the `psutil` queries behind
`sysinfo`/`ps`, and the size/mode/mtime block behind `stat`. These read
host state outside the modeled filesystem; no claim depends on their
contents, only on the success of the commands. -/
structure Host where
  sysinfoOut : String
  psOut : Int → String
  statOut : List String → String

/-- The `Terminal` class: confinement root, working directory (both absolute
component lists) and the host filesystem, plus the telemetry oracle. -/
structure Terminal where
  root : List String
  cwd : List String
  fs : FS
  host : Host

/-- Model of `Terminal._resolve_path`: parse the user path, normalize it against the
working directory (or absolutely), and require the result to be the root or
a descendant of it, via `Path.relative_to` = containment of normalized
components. The error string is the `TerminalError` message. -/
def Terminal.resolve_path (st : Terminal) (path : String) : Except String (List String) :=
  let comps := splitComps path
  let new := if isAbsolute path then normJoin [] comps else normJoin st.cwd comps
  if st.root.isPrefixOf new then Except.ok new
  else Except.error ("Path outside sandbox: " ++ path)

/-- Model of `Terminal.ls`: resolve, require existence, then list sorted entries with
a `/` suffix on directories. A file target makes `iterdir` raise `ENOTDIR`,
which `run`'s catch-all surfaces with that `OSError` message. -/
def Terminal.ls (st : Terminal) (path : String) : Except String String :=
  match st.resolve_path path with
  | Except.error e => Except.error e
  | Except.ok p =>
      if fsExists st.fs p = false then Except.error "No such file or directory"
      else if fsIsDir st.fs p = false then
        Except.error ("[Errno 20] Not a directory: " ++ squote (absStr p))
      else
        Except.ok (joinSep "\n"
          ((sortByName (fsChildren st.fs p)).map
            (fun c => c.1 ++ (if c.2 then "/" else ""))))

/-- Model of `Terminal.pwd`: the working directory relative to the root, with a
leading `/`; the root itself reports `/`. (`relative_to` is total here
because every reachable working directory lies under the root.) -/
def Terminal.pwd (st : Terminal) : String :=
  if st.cwd = st.root then "/"
  else "/" ++ joinSep "/" (st.cwd.drop st.root.length)

/-- Model of `Terminal.cd`: resolve, require a directory, set the working directory
and report the new `pwd`. -/
def Terminal.cd (st : Terminal) (path : String) : Except String (String × Terminal) :=
  match st.resolve_path path with
  | Except.error e => Except.error e
  | Except.ok p =>
      if fsIsDir st.fs p = false then Except.error "Not a directory"
      else
        let st2 : Terminal := { st with cwd := p }
        Except.ok (st2.pwd, st2)

/-- Model of `Terminal.mkdir`: resolve then `p.mkdir(parents=True, exist_ok=True)`. -/
def Terminal.mkdir (st : Terminal) (path : String) : Except String (String × Terminal) :=
  match st.resolve_path path with
  | Except.error e => Except.error e
  | Except.ok p =>
      match fsMkdirp st.fs p with
      | Except.error e => Except.error e
      | Except.ok fs2 =>
          Except.ok ("Created: " ++ relStr st.root p, { st with fs := fs2 })

/-- Model of `Terminal.rm`: resolve, require existence; a directory is removed by
`rmtree` when `recursive`, else by `rmdir` (whose `ENOTEMPTY` `OSError` on a
non-empty directory surfaces through `run`'s catch-all); a file by `unlink`. -/
def Terminal.rm (st : Terminal) (path : String) (recursive : Bool) :
    Except String (String × Terminal) :=
  match st.resolve_path path with
  | Except.error e => Except.error e
  | Except.ok p =>
      if fsExists st.fs p = false then Except.error "No such file or directory"
      else if fsIsDir st.fs p then
        if recursive then
          Except.ok ("Removed directory tree: " ++ relStr st.root p,
            { st with fs := fsRemoveSubtree st.fs p })
        else if fsHasDesc st.fs p then
          Except.error ("[Errno 39] Directory not empty: " ++ squote (absStr p))
        else
          Except.ok ("Removed directory: " ++ relStr st.root p,
            { st with fs := fsErase st.fs p })
      else
        Except.ok ("Removed file: " ++ relStr st.root p,
          { st with fs := fsErase st.fs p })

/-- Model of `Terminal.touch`: resolve, `parent.mkdir(parents=True, exist_ok=True)`,
then `p.touch(exist_ok=True)` — which only updates the mtime (not modeled)
when `p` exists, and creates an empty file otherwise. -/
def Terminal.touch (st : Terminal) (path : String) : Except String (String × Terminal) :=
  match st.resolve_path path with
  | Except.error e => Except.error e
  | Except.ok p =>
      match fsMkdirp st.fs p.dropLast with
      | Except.error e => Except.error e
      | Except.ok fs1 =>
          let fs2 := if fsExists fs1 p then fs1 else fsInsert fs1 p (Entry.fileE "")
          Except.ok ("Touched: " ++ relStr st.root p, { st with fs := fs2 })

/-- Model of `Terminal.cat`: resolve; a missing path or a directory is rejected, a
file's full text content is returned. -/
def Terminal.cat (st : Terminal) (path : String) : Except String String :=
  match st.resolve_path path with
  | Except.error e => Except.error e
  | Except.ok p =>
      if fsExists st.fs p = false || fsIsDir st.fs p then
        Except.error "No such file or file is a directory"
      else
        match fsLookup st.fs p with
        | some (Entry.fileE c) => Except.ok c
        | _ => Except.error "No such file or file is a directory"

/-- Model of `shutil.move` for same-filesystem paths on the modeled
filesystem: a missing source fails; a directory destination receives the
source under its basename unless that name already exists; `os.rename`
re-keys the subtree, overwrites a plain-file destination, and rejects a
move into the source's own subtree or a directory over a file. -/
def fsMove (fs : FS) (s d : List String) : Except String FS :=
  if fsExists fs s = false then
    Except.error ("[Errno 2] No such file or directory: " ++ squote (absStr s))
  else
    let real := if fsIsDir fs d then d ++ [s.getLastD ""] else d
    if fsIsDir fs d && fsExists fs real then
      Except.error ("Destination path " ++ squote (absStr real) ++ " already exists")
    else if s.isPrefixOf real && ¬ decide (s = real) then
      Except.error "[Errno 22] Invalid argument"
    else if fsIsDir fs s && fsIsFile fs real then
      Except.error ("[Errno 20] Not a directory: " ++ squote (absStr real))
    else
      Except.ok ((fs.filterMap (fun e =>
          if s.isPrefixOf e.1 then some (real ++ e.1.drop s.length, e.2) else none))
        ++ (fs.filter (fun e => ¬ (s.isPrefixOf e.1 = true ∨ e.1 = real))))

/-- Model of `Terminal.mv`: resolve both operands, create the destination's parent
directories, then `shutil.move`. -/
def Terminal.mv (st : Terminal) (src dst : String) : Except String (String × Terminal) :=
  match st.resolve_path src with
  | Except.error e => Except.error e
  | Except.ok s =>
      match st.resolve_path dst with
      | Except.error e => Except.error e
      | Except.ok d =>
          match fsMkdirp st.fs d.dropLast with
          | Except.error e => Except.error e
          | Except.ok fs1 =>
              match fsMove fs1 s d with
              | Except.error e => Except.error e
              | Except.ok fs2 =>
                  Except.ok ("Moved " ++ relStr st.root s ++ " -> " ++ relStr st.root d,
                    { st with fs := fs2 })

/-- Model of `shutil.copytree(src, dst)` (no `dirs_exist_ok`): fails when
the destination exists, else replicates the subtree. -/
def fsCopyTree (fs : FS) (s d : List String) : Except String FS :=
  if fsExists fs d then
    Except.error ("[Errno 17] File exists: " ++ squote (absStr d))
  else
    Except.ok ((fs.filterMap (fun e =>
        if s.isPrefixOf e.1 then some (d ++ e.1.drop s.length, e.2) else none)) ++ fs)

/-- Model of `shutil.copy2(src, dst)`: a directory destination receives the
file under its basename; an existing file destination is overwritten. -/
def fsCopyFile (fs : FS) (s d : List String) (content : String) : Except String FS :=
  let real := if fsIsDir fs d then d ++ [s.getLastD ""] else d
  if fsIsDir fs real then
    Except.error ("[Errno 21] Is a directory: " ++ squote (absStr real))
  else
    Except.ok (fsInsert fs real (Entry.fileE content))

/-- Model of `Terminal.cp`: resolve both operands, create the destination's parent
directories, then `copytree` for a directory source and `copy2` otherwise
(a missing source surfaces `copy2`'s `ENOENT`). -/
def Terminal.cp (st : Terminal) (src dst : String) : Except String (String × Terminal) :=
  match st.resolve_path src with
  | Except.error e => Except.error e
  | Except.ok s =>
      match st.resolve_path dst with
      | Except.error e => Except.error e
      | Except.ok d =>
          match fsMkdirp st.fs d.dropLast with
          | Except.error e => Except.error e
          | Except.ok fs1 =>
              if fsIsDir fs1 s then
                match fsCopyTree fs1 s d with
                | Except.error e => Except.error e
                | Except.ok fs2 =>
                    Except.ok ("Copied " ++ relStr st.root s ++ " -> " ++ relStr st.root d,
                      { st with fs := fs2 })
              else
                match fsLookup fs1 s with
                | some (Entry.fileE c) =>
                    match fsCopyFile fs1 s d c with
                    | Except.error e => Except.error e
                    | Except.ok fs2 =>
                        Except.ok ("Copied " ++ relStr st.root s ++ " -> " ++ relStr st.root d,
                          { st with fs := fs2 })
                | _ =>
                    Except.error ("[Errno 2] No such file or directory: " ++ squote (absStr s))

/-- Model of `Terminal.stat`: resolve, require existence, report the host metadata
block (size/mode/mtime are host state, abstracted by the oracle). -/
def Terminal.stat (st : Terminal) (path : String) : Except String String :=
  match st.resolve_path path with
  | Except.error e => Except.error e
  | Except.ok p =>
      if fsExists st.fs p = false then Except.error "No such file or directory"
      else Except.ok (st.host.statOut p)

/-- Model of `Terminal.sysinfo`: the `psutil` CPU/memory summary, from the oracle. -/
def Terminal.sysinfo (st : Terminal) : String :=
  st.host.sysinfoOut

/-- Model of `Terminal.ps`: the ranked process snapshot, from the oracle. -/
def Terminal.ps (st : Terminal) (limit : Int) : String :=
  st.host.psOut limit

/-- Lexer state of the `shlex` model: outside any token region, inside a
single- or double-quoted region, or after a backslash (outside quotes or
inside a double-quoted region). -/
inductive LexState where
  | normalSt
  | singleSt
  | doubleSt
  | escSt
  | escDoubleSt
deriving DecidableEq

/-- The `shlex` whitespace characters. -/
def isShWS (c : Char) : Bool :=
  c = ' ' || c = '\t' || c = '\r' || c = '\n'

/-- Append the token in progress, if any, to the (reversed) output. -/
def flushTok (tok : Option String) (out : List String) : List String :=
  match tok with
  | none => out
  | some t => t :: out

/-- Character-by-character model of `shlex.split` in POSIX mode with
whitespace splitting: whitespace separates tokens, quotes group (an empty
quoted region yields an empty token), a backslash escapes the next character
outside quotes and escapes only `\x22` and `\x5c` inside double quotes,
single-quoted text is literal. An unterminated quote raises the
`ValueError` message No closing quotation, a trailing backslash the message
No escaped character. -/
def shlexRun : LexState → Option String → List String → List Char →
    Except String (List String)
  | LexState.normalSt, tok, out, [] => Except.ok (flushTok tok out).reverse
  | LexState.normalSt, tok, out, c :: cs =>
      if isShWS c then shlexRun LexState.normalSt none (flushTok tok out) cs
      else if c = '\'' then shlexRun LexState.singleSt (some (tok.getD "")) out cs
      else if c = '"' then shlexRun LexState.doubleSt (some (tok.getD "")) out cs
      else if c = '\\' then shlexRun LexState.escSt (some (tok.getD "")) out cs
      else shlexRun LexState.normalSt (some ((tok.getD "").push c)) out cs
  | LexState.escSt, _, _, [] => Except.error "No escaped character"
  | LexState.escSt, tok, out, c :: cs =>
      shlexRun LexState.normalSt (some ((tok.getD "").push c)) out cs
  | LexState.singleSt, _, _, [] => Except.error "No closing quotation"
  | LexState.singleSt, tok, out, c :: cs =>
      if c = '\'' then shlexRun LexState.normalSt tok out cs
      else shlexRun LexState.singleSt (some ((tok.getD "").push c)) out cs
  | LexState.doubleSt, _, _, [] => Except.error "No closing quotation"
  | LexState.doubleSt, tok, out, c :: cs =>
      if c = '"' then shlexRun LexState.normalSt tok out cs
      else if c = '\\' then shlexRun LexState.escDoubleSt tok out cs
      else shlexRun LexState.doubleSt (some ((tok.getD "").push c)) out cs
  | LexState.escDoubleSt, _, _, [] => Except.error "No escaped character"
  | LexState.escDoubleSt, tok, out, c :: cs =>
      let t := tok.getD ""
      let t2 := if c = '"' ∨ c = '\\' then t.push c else (t.push '\\').push c
      shlexRun LexState.doubleSt (some t2) out cs

/-- Model of `shlex.split(cmdline)` as `Terminal.run` calls it. -/
def shlexSplit (s : String) : Except String (List String) :=
  shlexRun LexState.normalSt none [] s.toList

/-- Model of Python `int(s)` for base 10: strip surrounding whitespace,
accept an optional sign and a nonempty digit string with single underscores
between digits; anything else raises the `ValueError` whose message `run`'s
catch-all converts into the `TerminalError` text. -/
def pyIntCore : List Char → Option Nat
  | [] => none
  | ds =>
      let rec go : List Char → Bool → Option Nat → Option Nat
        | [], lastDigit, acc => if lastDigit then acc else none
        | c :: cs, lastDigit, acc =>
            if c.isDigit then
              go cs true (acc.map (fun n => n * 10 + (c.toNat - 48)))
            else if c = '_' then
              if lastDigit then go cs false acc else none
            else none
      go ds false (some 0)

/-- Whitespace stripped by Python `int()`. -/
def isPySpace (c : Char) : Bool :=
  c = ' ' || c = '\t' || c = '\n' || c = '\r' || c = '\x0b' || c = '\x0c'

/-- Sign handling and message of Python `int(s)`. -/
def pyInt (s : String) : Except String Int :=
  let stripped := ((s.toList.dropWhile isPySpace).reverse.dropWhile isPySpace).reverse
  let core :=
    match stripped with
    | '+' :: r => (pyIntCore r).map (fun n => (n : Int))
    | '-' :: r => (pyIntCore r).map (fun n => -(n : Int))
    | r => (pyIntCore r).map (fun n => (n : Int))
  match core with
  | some n => Except.ok n
  | none => Except.error ("invalid literal for int() with base 10: " ++ squote s)

/-- Result of one `Terminal.run` call: a returned string, a raised
`TerminalError`, or an uncaught `ValueError` from `shlex.split` (which runs
before the try block). -/
inductive RunResult where
  | ok (out : String)
  | terminalError (msg : String)
  | valueError (msg : String)
deriving DecidableEq

/-- Surface a read-only operation's result as `run` does: the returned
string, or the caught error as a `TerminalError`; the state is untouched. -/
def liftQuery (st : Terminal) : Except String String → RunResult × Terminal
  | Except.ok s => (RunResult.ok s, st)
  | Except.error e => (RunResult.terminalError e, st)

/-- Surface a state-changing operation's result as `run` does: on success
the new state, on a caught error a `TerminalError` with the state untouched. -/
def liftOp (st : Terminal) : Except String (String × Terminal) → RunResult × Terminal
  | Except.ok (s, st2) => (RunResult.ok s, st2)
  | Except.error e => (RunResult.terminalError e, st)

/-- Dispatch of `Terminal.run`'s try block on the first token and the
argument tokens, mirroring the source's if chain (including `rm`'s falsy
target check, by which an empty-string target is also a missing operand). -/
def runTokens (st : Terminal) (cmd : String) (args : List String) : RunResult × Terminal :=
  if cmd = "ls" ∨ cmd = "dir" then liftQuery st (st.ls (args.headD "."))
  else if cmd = "pwd" then (RunResult.ok st.pwd, st)
  else if cmd = "cd" then liftOp st (st.cd (args.headD "."))
  else if cmd = "mkdir" then
    match args with
    | [] => (RunResult.terminalError "mkdir: missing operand", st)
    | a :: _ => liftOp st (st.mkdir a)
  else if cmd = "rm" ∨ cmd = "del" then
    match args with
    | [] => (RunResult.terminalError "rm: missing operand", st)
    | a :: rest =>
        if a = "-r" then
          match rest.head? with
          | none => (RunResult.terminalError "rm: missing operand", st)
          | some t =>
              if t = "" then (RunResult.terminalError "rm: missing operand", st)
              else liftOp st (st.rm t true)
        else
          if a = "" then (RunResult.terminalError "rm: missing operand", st)
          else liftOp st (st.rm a false)
  else if cmd = "touch" then
    match args with
    | [] => (RunResult.terminalError "touch: missing operand", st)
    | a :: _ => liftOp st (st.touch a)
  else if cmd = "cat" then
    match args with
    | [] => (RunResult.terminalError "cat: missing operand", st)
    | a :: _ => liftQuery st (st.cat a)
  else if cmd = "mv" then
    match args with
    | a :: b :: _ => liftOp st (st.mv a b)
    | _ => (RunResult.terminalError "mv: missing operands", st)
  else if cmd = "cp" then
    match args with
    | a :: b :: _ => liftOp st (st.cp a b)
    | _ => (RunResult.terminalError "cp: missing operands", st)
  else if cmd = "stat" then
    match args with
    | [] => (RunResult.terminalError "stat: missing operand", st)
    | a :: _ => liftQuery st (st.stat a)
  else if cmd = "sysinfo" then (RunResult.ok st.sysinfo, st)
  else if cmd = "ps" then
    match args with
    | [] => (RunResult.ok (st.ps 10), st)
    | a :: _ =>
        match pyInt a with
        | Except.ok n => (RunResult.ok (st.ps n), st)
        | Except.error e => (RunResult.terminalError e, st)
  else if cmd = "help" ∨ cmd = "?" then
    (RunResult.ok "Commands: ls pwd cd mkdir rm touch cat mv cp stat sysinfo ps help exit", st)
  else if cmd = "exit" ∨ cmd = "quit" then (RunResult.ok "exit", st)
  else (RunResult.terminalError ("Unsupported command: " ++ cmd), st)

/-- Model of `Terminal.run`: tokenize (outside the try block, so a
tokenization `ValueError` escapes uncaught), return the empty string on an
empty token list, and otherwise dispatch on the command. -/
def Terminal.run (st : Terminal) (cmdline : String) : RunResult × Terminal :=
  match shlexSplit cmdline with
  | Except.error e => (RunResult.valueError e, st)
  | Except.ok [] => (RunResult.ok "", st)
  | Except.ok (cmd :: args) => runTokens st cmd args

deriving instance DecidableEq for Except

/-- The normalized absolute target `_resolve_path` computes for a user path
before the containment check. -/
def normTarget (st : Terminal) (path : String) : List String :=
  if isAbsolute path then normJoin [] (splitComps path) else normJoin st.cwd (splitComps path)

/-- A concrete host oracle for witnesses. -/
def host0 : Host :=
  { sysinfoOut := "", psOut := fun _ => "", statOut := fun _ => "" }

/-- A concrete terminal confined to `/s`, used by witnesses: the sandbox
root exists and is the working directory. -/
def st0 : Terminal :=
  { root := ["s"], cwd := ["s"], fs := [(["s"], Entry.dirE)], host := host0 }

/-- A concrete terminal whose sandbox holds a directory `d` containing a
file `d/f`, and an empty directory `e`, used by witnesses. -/
def st1 : Terminal :=
  { root := ["s"], cwd := ["s"],
    fs := [(["s"], Entry.dirE), (["s", "d"], Entry.dirE),
           (["s", "d", "f"], Entry.fileE "hi"), (["s", "e"], Entry.dirE)],
    host := host0 }

theorem resolve_path_eq (st : Terminal) (path : String) :
    st.resolve_path path =
      (if st.root.isPrefixOf (normTarget st path) then Except.ok (normTarget st path)
       else Except.error ("Path outside sandbox: " ++ path)) := rfl

theorem resolve_path_ok (st : Terminal) (path : String) (p : List String)
    (h : st.resolve_path path = Except.ok p) :
    p = normTarget st path ∧ st.root <+: p := by
  rw [resolve_path_eq] at h
  by_cases hpre : st.root.isPrefixOf (normTarget st path) = true
  · rw [if_pos hpre] at h
    cases h
    exact ⟨rfl, List.isPrefixOf_iff_prefix.mp hpre⟩
  · rw [if_neg hpre] at h
    cases h

theorem resolve_path_error (st : Terminal) (path : String)
    (h : st.root.isPrefixOf (normTarget st path) = false) :
    st.resolve_path path = Except.error ("Path outside sandbox: " ++ path) := by
  rw [resolve_path_eq, if_neg (by simp [h])]

theorem mkdir_resolve_error (st : Terminal) (path e : String)
    (h : st.resolve_path path = Except.error e) :
    st.mkdir path = Except.error e := by
  unfold Terminal.mkdir
  rw [h]

theorem rm_resolve_error (st : Terminal) (path e : String) (r : Bool)
    (h : st.resolve_path path = Except.error e) :
    st.rm path r = Except.error e := by
  unfold Terminal.rm
  rw [h]

theorem touch_resolve_error (st : Terminal) (path e : String)
    (h : st.resolve_path path = Except.error e) :
    st.touch path = Except.error e := by
  unfold Terminal.touch
  rw [h]

theorem mv_resolve_error (st : Terminal) (path e q : String)
    (h : st.resolve_path path = Except.error e) :
    st.mv path q = Except.error e := by
  unfold Terminal.mv
  rw [h]

theorem cp_resolve_error (st : Terminal) (path e q : String)
    (h : st.resolve_path path = Except.error e) :
    st.cp path q = Except.error e := by
  unfold Terminal.cp
  rw [h]

theorem fsLookup_cons (e : List String × Entry) (fs : FS) (q : List String) :
    fsLookup (e :: fs) q = if e.1 = q then some e.2 else fsLookup fs q := by
  unfold fsLookup
  rw [List.find?_cons]
  by_cases h : e.1 = q
  · simp [h]
  · simp [h]

theorem fsLookup_erase_ne (fs : FS) (p q : List String) (h : ¬ q = p) :
    fsLookup (fsErase fs p) q = fsLookup fs q := by
  induction fs with
  | nil => rfl
  | cons e fs ih =>
      unfold fsErase at ih ⊢
      rw [List.filter_cons]
      by_cases he : e.1 = p
      · rw [if_neg (by simp [he])]
        rw [ih, fsLookup_cons, if_neg (by rw [he]; exact fun hq => h hq.symm)]
      · rw [if_pos (by simp [he])]
        rw [fsLookup_cons, fsLookup_cons, ih]

theorem fsLookup_insert (fs : FS) (p : List String) (v : Entry) (q : List String) :
    fsLookup (fsInsert fs p v) q = if q = p then some v else fsLookup fs q := by
  unfold fsInsert
  rw [fsLookup_cons]
  by_cases h : q = p
  · simp [h]
  · rw [if_neg (fun hq => h hq.symm), if_neg h, fsLookup_erase_ne fs p q h]

theorem fsIsFile_insert_dirE (fs : FS) (k q : List String)
    (h : fsIsFile fs q = false) : fsIsFile (fsInsert fs k Entry.dirE) q = false := by
  unfold fsIsFile at h ⊢
  rw [fsLookup_insert]
  by_cases hq : q = k
  · rw [if_pos hq]
  · rw [if_neg hq]
    exact h

theorem fsIsDir_insert_dirE (fs : FS) (k q : List String)
    (h : fsIsDir fs q = true) : fsIsDir (fsInsert fs k Entry.dirE) q = true := by
  unfold fsIsDir at h ⊢
  rw [fsLookup_insert]
  by_cases hq : q = k
  · rw [if_pos hq]
    simp
  · rw [if_neg hq]
    exact h

theorem addDirs_cons (fs : FS) (q : List String) (qs : List (List String)) :
    addDirs fs (q :: qs) =
      addDirs (if fsExists fs q then fs else fsInsert fs q Entry.dirE) qs := rfl

theorem addDirs_isDir_preserved (qs : List (List String)) (fs : FS) (q : List String)
    (h : fsIsDir fs q = true) : fsIsDir (addDirs fs qs) q = true := by
  induction qs generalizing fs with
  | nil => exact h
  | cons k rest ih =>
      rw [addDirs_cons]
      by_cases hk : fsExists fs k = true
      · rw [if_pos hk]
        exact ih fs h
      · rw [if_neg hk]
        exact ih _ (fsIsDir_insert_dirE fs k q h)

theorem addDirs_isFile_false (qs : List (List String)) (fs : FS) (q : List String)
    (h : fsIsFile fs q = false) : fsIsFile (addDirs fs qs) q = false := by
  induction qs generalizing fs with
  | nil => exact h
  | cons k rest ih =>
      rw [addDirs_cons]
      by_cases hk : fsExists fs k = true
      · rw [if_pos hk]
        exact ih fs h
      · rw [if_neg hk]
        exact ih _ (fsIsFile_insert_dirE fs k q h)

theorem fsIsDir_of_exists_not_file (fs : FS) (q : List String)
    (hex : fsExists fs q = true) (hf : fsIsFile fs q = false) : fsIsDir fs q = true := by
  unfold fsExists at hex
  unfold fsIsFile at hf
  unfold fsIsDir
  by_cases he : q.isEmpty = true
  · simp [he]
  · simp only [he, Bool.false_or] at hex ⊢
    match hlk : fsLookup fs q with
    | none => rw [hlk] at hex; simp at hex
    | some (Entry.fileE c) => rw [hlk] at hf; simp at hf
    | some Entry.dirE => simp

theorem addDirs_isDir_of_mem (qs : List (List String)) (fs : FS) (q : List String)
    (hq : q ∈ qs) (hf : fsIsFile fs q = false) : fsIsDir (addDirs fs qs) q = true := by
  induction qs generalizing fs with
  | nil => cases hq
  | cons k rest ih =>
      rw [addDirs_cons]
      rcases List.mem_cons.mp hq with hqk | hqr
      · subst hqk
        by_cases hk : fsExists fs q = true
        · rw [if_pos hk]
          exact addDirs_isDir_preserved rest fs q (fsIsDir_of_exists_not_file fs q hk hf)
        · rw [if_neg hk]
          apply addDirs_isDir_preserved
          unfold fsIsDir
          rw [fsLookup_insert, if_pos rfl]
          simp
      · by_cases hk : fsExists fs k = true
        · rw [if_pos hk]
          exact ih fs hqr hf
        · rw [if_neg hk]
          exact ih _ hqr (fsIsFile_insert_dirE fs k q hf)

theorem fsExists_of_isDir (fs : FS) (q : List String)
    (h : fsIsDir fs q = true) : fsExists fs q = true := by
  unfold fsIsDir at h
  unfold fsExists
  by_cases he : q.isEmpty = true
  · simp [he]
  · simp only [he, Bool.false_or] at h ⊢
    rcases of_decide_eq_true h with hlk
    rw [hlk]
    rfl

theorem addDirs_noop (qs : List (List String)) (fs : FS)
    (h : ∀ q ∈ qs, fsExists fs q = true) : addDirs fs qs = fs := by
  induction qs generalizing fs with
  | nil => rfl
  | cons k rest ih =>
      rw [addDirs_cons, if_pos (h k (List.mem_cons_self k rest))]
      exact ih fs (fun q hq => h q (List.mem_cons_of_mem k hq))

theorem fsMkdirp_ok (fs : FS) (p : List String) (fs2 : FS)
    (h : fsMkdirp fs p = Except.ok fs2) :
    fs2 = addDirs fs p.inits ∧ ∀ q, q <+: p → fsIsFile fs q = false := by
  unfold fsMkdirp at h
  by_cases h1 : p.inits.any (fun q => (!(decide (q = p))) && fsIsFile fs q) = true
  · rw [if_pos h1] at h
    cases h
  · rw [if_neg h1] at h
    by_cases h2 : fsIsFile fs p = true
    · rw [if_pos h2] at h
      cases h
    · rw [if_neg h2] at h
      cases h
      refine ⟨rfl, fun q hq => ?_⟩
      by_cases hqp : q = p
      · subst hqp
        exact Bool.eq_false_iff.mpr h2
      · rw [List.any_eq_true] at h1
        push_neg at h1
        have hthis := h1 q ((List.mem_inits q p).mpr hq)
        by_cases hf : fsIsFile fs q = true
        · exact absurd (by rw [Bool.and_eq_true]; exact ⟨by simp [hqp], hf⟩) hthis
        · exact Bool.eq_false_iff.mpr hf

theorem fsMkdirp_ok_isDir (fs : FS) (p : List String) (fs2 : FS)
    (h : fsMkdirp fs p = Except.ok fs2) :
    ∀ q, q <+: p → fsIsDir fs2 q = true := by
  obtain ⟨hfs2, hfiles⟩ := fsMkdirp_ok fs p fs2 h
  intro q hq
  rw [hfs2]
  exact addDirs_isDir_of_mem p.inits fs q ((List.mem_inits q p).mpr hq) (hfiles q hq)

theorem fsMkdirp_idem (fs : FS) (p : List String) (fs2 : FS)
    (h : fsMkdirp fs p = Except.ok fs2) :
    fsMkdirp fs2 p = Except.ok fs2 := by
  obtain ⟨hfs2, hfiles⟩ := fsMkdirp_ok fs p fs2 h
  have hfiles2 : ∀ q, q <+: p → fsIsFile fs2 q = false := by
    intro q hq
    rw [hfs2]
    exact addDirs_isFile_false p.inits fs q (hfiles q hq)
  have hdirs2 : ∀ q, q <+: p → fsIsDir fs2 q = true := fsMkdirp_ok_isDir fs p fs2 h
  unfold fsMkdirp
  rw [if_neg ?hany]
  case hany =>
    rw [List.any_eq_true]
    push_neg
    intro q hqmem hcon
    rw [Bool.and_eq_true] at hcon
    rw [hfiles2 q ((List.mem_inits q p).mp hqmem)] at hcon
    exact absurd hcon.2 (by simp)
  rw [if_neg (by rw [hfiles2 p (List.prefix_refl p)]; simp)]
  rw [addDirs_noop p.inits fs2 ?hex]
  case hex =>
    intro q hqmem
    exact fsExists_of_isDir fs2 q (hdirs2 q ((List.mem_inits q p).mp hqmem))

theorem mkdir_ok (st : Terminal) (path s : String) (st2 : Terminal)
    (h : st.mkdir path = Except.ok (s, st2)) :
    ∃ p fs2, st.resolve_path path = Except.ok p ∧ fsMkdirp st.fs p = Except.ok fs2 ∧
      s = "Created: " ++ relStr st.root p ∧ st2 = { st with fs := fs2 } := by
  unfold Terminal.mkdir at h
  split at h
  · cases h
  · rename_i p heq
    split at h
    · cases h
    · rename_i fs2 heq2
      cases h
      exact ⟨p, fs2, heq, heq2, rfl, rfl⟩

theorem liftQuery_shape (st : Terminal) (r : Except String String) :
    (∃ s, (liftQuery st r).1 = RunResult.ok s) ∨
    (∃ e, (liftQuery st r).1 = RunResult.terminalError e) := by
  cases r with
  | ok s => exact Or.inl ⟨s, rfl⟩
  | error e => exact Or.inr ⟨e, rfl⟩

theorem liftOp_shape (st : Terminal) (r : Except String (String × Terminal)) :
    (∃ s, (liftOp st r).1 = RunResult.ok s) ∨
    (∃ e, (liftOp st r).1 = RunResult.terminalError e) := by
  cases r with
  | ok p => exact Or.inl ⟨p.1, by rw [show liftOp st (Except.ok p) = (RunResult.ok p.1, p.2) from by cases p; rfl]⟩
  | error e => exact Or.inr ⟨e, rfl⟩

theorem runTokens_cases (st : Terminal) (cmd : String) (args : List String) :
    (∃ x, runTokens st cmd args = liftQuery st x) ∨
    (∃ m, runTokens st cmd args = (RunResult.terminalError m, st)) ∨
    (∃ s, runTokens st cmd args = (RunResult.ok s, st)) ∨
    (cmd = "cd" ∧ runTokens st cmd args = liftOp st (st.cd (args.headD "."))) ∨
    (∃ a, runTokens st cmd args = liftOp st (st.mkdir a)) ∨
    (∃ t r, runTokens st cmd args = liftOp st (st.rm t r)) ∨
    (∃ a, runTokens st cmd args = liftOp st (st.touch a)) ∨
    (∃ a b, runTokens st cmd args = liftOp st (st.mv a b)) ∨
    (∃ a b, runTokens st cmd args = liftOp st (st.cp a b)) := by
  delta runTokens
  by_cases h1 : cmd = "ls" ∨ cmd = "dir"
  · rw [if_pos h1]
    exact Or.inl ⟨_, rfl⟩
  rw [if_neg h1]
  by_cases h2 : cmd = "pwd"
  · rw [if_pos h2]
    exact Or.inr (Or.inr (Or.inl ⟨_, rfl⟩))
  rw [if_neg h2]
  by_cases h3 : cmd = "cd"
  · rw [if_pos h3]
    exact Or.inr (Or.inr (Or.inr (Or.inl ⟨h3, rfl⟩)))
  rw [if_neg h3]
  by_cases h4 : cmd = "mkdir"
  · rw [if_pos h4]
    cases args with
    | nil => exact Or.inr (Or.inl ⟨_, rfl⟩)
    | cons a rest => exact Or.inr (Or.inr (Or.inr (Or.inr (Or.inl ⟨a, rfl⟩))))
  rw [if_neg h4]
  by_cases h5 : cmd = "rm" ∨ cmd = "del"
  · rw [if_pos h5]
    cases args with
    | nil => exact Or.inr (Or.inl ⟨_, rfl⟩)
    | cons a rest =>
        dsimp only
        by_cases ha : a = "-r"
        · rw [if_pos ha]
          cases rest with
          | nil => exact Or.inr (Or.inl ⟨_, rfl⟩)
          | cons b rest2 =>
              dsimp only [List.head?]
              by_cases hb : b = ""
              · rw [if_pos hb]
                exact Or.inr (Or.inl ⟨_, rfl⟩)
              · rw [if_neg hb]
                exact Or.inr (Or.inr (Or.inr (Or.inr (Or.inr (Or.inl ⟨b, true, rfl⟩)))))
        · rw [if_neg ha]
          by_cases hb : a = ""
          · rw [if_pos hb]
            exact Or.inr (Or.inl ⟨_, rfl⟩)
          · rw [if_neg hb]
            exact Or.inr (Or.inr (Or.inr (Or.inr (Or.inr (Or.inl ⟨a, false, rfl⟩)))))
  rw [if_neg h5]
  by_cases h6 : cmd = "touch"
  · rw [if_pos h6]
    cases args with
    | nil => exact Or.inr (Or.inl ⟨_, rfl⟩)
    | cons a rest =>
        exact Or.inr (Or.inr (Or.inr (Or.inr (Or.inr (Or.inr (Or.inl ⟨a, rfl⟩))))))
  rw [if_neg h6]
  by_cases h7 : cmd = "cat"
  · rw [if_pos h7]
    cases args with
    | nil => exact Or.inr (Or.inl ⟨_, rfl⟩)
    | cons a rest => exact Or.inl ⟨_, rfl⟩
  rw [if_neg h7]
  by_cases h8 : cmd = "mv"
  · rw [if_pos h8]
    cases args with
    | nil => exact Or.inr (Or.inl ⟨_, rfl⟩)
    | cons a rest =>
        cases rest with
        | nil => exact Or.inr (Or.inl ⟨_, rfl⟩)
        | cons b rest2 =>
            exact Or.inr (Or.inr (Or.inr (Or.inr (Or.inr (Or.inr (Or.inr
              (Or.inl ⟨a, b, rfl⟩)))))))
  rw [if_neg h8]
  by_cases h9 : cmd = "cp"
  · rw [if_pos h9]
    cases args with
    | nil => exact Or.inr (Or.inl ⟨_, rfl⟩)
    | cons a rest =>
        cases rest with
        | nil => exact Or.inr (Or.inl ⟨_, rfl⟩)
        | cons b rest2 =>
            exact Or.inr (Or.inr (Or.inr (Or.inr (Or.inr (Or.inr (Or.inr (Or.inr
              ⟨a, b, rfl⟩)))))))
  rw [if_neg h9]
  by_cases h10 : cmd = "stat"
  · rw [if_pos h10]
    cases args with
    | nil => exact Or.inr (Or.inl ⟨_, rfl⟩)
    | cons a rest => exact Or.inl ⟨_, rfl⟩
  rw [if_neg h10]
  by_cases h11 : cmd = "sysinfo"
  · rw [if_pos h11]
    exact Or.inr (Or.inr (Or.inl ⟨_, rfl⟩))
  rw [if_neg h11]
  by_cases h12 : cmd = "ps"
  · rw [if_pos h12]
    cases args with
    | nil => exact Or.inr (Or.inr (Or.inl ⟨_, rfl⟩))
    | cons a rest =>
        dsimp only
        cases hpy : pyInt a with
        | ok n =>
            exact Or.inr (Or.inr (Or.inl ⟨_, rfl⟩))
        | error e =>
            exact Or.inr (Or.inl ⟨_, rfl⟩)
  rw [if_neg h12]
  by_cases h13 : cmd = "help" ∨ cmd = "?"
  · rw [if_pos h13]
    exact Or.inr (Or.inr (Or.inl ⟨_, rfl⟩))
  rw [if_neg h13]
  by_cases h14 : cmd = "exit" ∨ cmd = "quit"
  · rw [if_pos h14]
    exact Or.inr (Or.inr (Or.inl ⟨_, rfl⟩))
  rw [if_neg h14]
  exact Or.inr (Or.inl ⟨_, rfl⟩)

theorem runTokens_shape (st : Terminal) (cmd : String) (args : List String) :
    (∃ s, (runTokens st cmd args).1 = RunResult.ok s) ∨
    (∃ e, (runTokens st cmd args).1 = RunResult.terminalError e) := by
  rcases runTokens_cases st cmd args with ⟨x, hx⟩ | ⟨m, hx⟩ | ⟨s, hx⟩ | ⟨hcd, hx⟩ |
    ⟨a, hx⟩ | ⟨tg, r, hx⟩ | ⟨a, hx⟩ | ⟨a, b, hx⟩ | ⟨a, b, hx⟩
  · rw [hx]
    exact liftQuery_shape st x
  · rw [hx]
    exact Or.inr ⟨m, rfl⟩
  · rw [hx]
    exact Or.inl ⟨s, rfl⟩
  · rw [hx]
    exact liftOp_shape st _
  all_goals
    rw [hx]
    exact liftOp_shape st _

theorem run_eq_tokens (st : Terminal) (line cmd : String) (args : List String)
    (h : shlexSplit line = Except.ok (cmd :: args)) :
    st.run line = runTokens st cmd args := by
  unfold Terminal.run
  rw [h]

theorem run_empty (st : Terminal) (line : String)
    (h : shlexSplit line = Except.ok []) : st.run line = (RunResult.ok "", st) := by
  unfold Terminal.run
  rw [h]

theorem runTokens_cd_eq (st : Terminal) (args : List String) :
    runTokens st "cd" args = liftOp st (st.cd (args.headD ".")) := by
  delta runTokens
  rw [if_neg (by decide), if_neg (by decide), if_pos rfl]

theorem runTokens_mkdir_eq (st : Terminal) (a : String) (rest : List String) :
    runTokens st "mkdir" (a :: rest) = liftOp st (st.mkdir a) := by
  delta runTokens
  rw [if_neg (by decide), if_neg (by decide), if_neg (by decide), if_pos rfl]

theorem addDirs_lookup_not_mem (qs : List (List String)) (fs : FS) (q : List String)
    (h : q ∉ qs) : fsLookup (addDirs fs qs) q = fsLookup fs q := by
  induction qs generalizing fs with
  | nil => rfl
  | cons k rest ih =>
      rw [addDirs_cons]
      have hk : ¬ q = k := fun hq => h (hq ▸ List.mem_cons_self k rest)
      have hr : q ∉ rest := fun hq => h (List.mem_cons_of_mem k hq)
      by_cases hex : fsExists fs k = true
      · rw [if_pos hex]
        exact ih fs hr
      · rw [if_neg hex]
        rw [ih _ hr, fsLookup_insert, if_neg hk]

theorem not_mem_inits_dropLast (p : List String) (hp : ¬ p = []) :
    p ∉ p.dropLast.inits := by
  intro hmem
  have hpre := (List.mem_inits p p.dropLast).mp hmem
  have hlen := hpre.length_le
  rw [List.length_dropLast] at hlen
  have hpos : 0 < p.length := List.length_pos.mpr hp
  omega

theorem fsIsDir_insert_ne (fs : FS) (p : List String) (v : Entry) (q : List String)
    (hne : ¬ q = p) : fsIsDir (fsInsert fs p v) q = fsIsDir fs q := by
  unfold fsIsDir
  rw [fsLookup_insert, if_neg hne]

theorem fsLookup_removeSubtree (fs : FS) (p q : List String) (h : p <+: q) :
    fsLookup (fsRemoveSubtree fs p) q = none := by
  induction fs with
  | nil => rfl
  | cons e fs ih =>
      unfold fsRemoveSubtree at ih ⊢
      rw [List.filter_cons]
      by_cases he : p.isPrefixOf e.1 = true
      · rw [if_neg (by simp [he])]
        exact ih
      · rw [if_pos (by simp [he])]
        rw [fsLookup_cons, if_neg, ih]
        intro hq
        exact he (List.isPrefixOf_iff_prefix.mpr (hq ▸ h))

theorem resolve_dot (st : Terminal) (hpre : st.root <+: st.cwd) :
    st.resolve_path "." = Except.ok st.cwd := by
  rw [resolve_path_eq]
  have ht : normTarget st "." = st.cwd := rfl
  rw [ht, if_pos (List.isPrefixOf_iff_prefix.mpr hpre)]

theorem resolve_single_x (st : Terminal) (hcwd : st.cwd = st.root) :
    st.resolve_path "x" = Except.ok (st.root ++ ["x"]) := by
  rw [resolve_path_eq]
  have ht : normTarget st "x" = st.cwd ++ ["x"] := rfl
  rw [ht, hcwd, if_pos (List.isPrefixOf_iff_prefix.mpr (List.prefix_append _ _))]

theorem resolve_dotdot (st : Terminal) (hcwd : st.cwd = st.root ++ ["x"]) :
    st.resolve_path ".." = Except.ok st.root := by
  rw [resolve_path_eq]
  have ht : normTarget st ".." = st.cwd.dropLast := rfl
  rw [ht, hcwd, List.dropLast_concat,
    if_pos (List.isPrefixOf_iff_prefix.mpr (List.prefix_refl _))]

/-- C1: for every user-supplied path string, if the normalized target
(joined onto the working directory when relative, taken directly when
absolute) lies outside the confinement root, then `_resolve_path` fails
with the OutsideSandbox `TerminalError` and every mutating operation fails
with that same error, performing no filesystem mutation (an error result
carries no new state, and `run` keeps the old state on error); and every
path resolution does return equals the normalized target and has the root
as a component-list prefix (it is the root or a descendant), the check
being containment on normalized components, not string prefixes. -/
theorem C1_resolve_confinement (st : Terminal) (path : String) :
    (∀ p, st.resolve_path path = Except.ok p → p = normTarget st path ∧ st.root <+: p)
    ∧ (st.root.isPrefixOf (normTarget st path) = false →
        st.resolve_path path = Except.error ("Path outside sandbox: " ++ path)
        ∧ st.mkdir path = Except.error ("Path outside sandbox: " ++ path)
        ∧ (∀ r, st.rm path r = Except.error ("Path outside sandbox: " ++ path))
        ∧ st.touch path = Except.error ("Path outside sandbox: " ++ path)
        ∧ (∀ q, st.mv path q = Except.error ("Path outside sandbox: " ++ path))
        ∧ (∀ q, st.cp path q = Except.error ("Path outside sandbox: " ++ path))) := by
  constructor
  · exact fun p h => resolve_path_ok st path p h
  · intro hpre
    have herr := resolve_path_error st path hpre
    exact ⟨herr, mkdir_resolve_error st path _ herr,
      fun r => rm_resolve_error st path _ r herr,
      touch_resolve_error st path _ herr,
      fun q => mv_resolve_error st path _ q herr,
      fun q => cp_resolve_error st path _ q herr⟩

/-- Witness for C1 at the concrete sandbox `/s` and the escaping absolute
path `/etc` (and the relative escape `..`). -/
theorem C1_witness :
    (st0.root.isPrefixOf (normTarget st0 "/etc") = false
      ∧ st0.resolve_path "/etc" = Except.error "Path outside sandbox: /etc"
      ∧ st0.mkdir "/etc" = Except.error "Path outside sandbox: /etc")
    ∧ (st0.root.isPrefixOf (normTarget st0 "..") = false
      ∧ st0.rm ".." true = Except.error "Path outside sandbox: ..") := by
  refine ⟨⟨by decide, ?_, ?_⟩, by decide, ?_⟩
  · exact ((C1_resolve_confinement st0 "/etc").2 (by decide)).1
  · exact ((C1_resolve_confinement st0 "/etc").2 (by decide)).2.1
  · exact ((C1_resolve_confinement st0 "..").2 (by decide)).2.2.1 true

/-- C2 counterexample: on the malformed line `cat "x` (unterminated double
quote) `run` raises the tokenizer's `ValueError` (message No closing
quotation) uncaught — `shlex.split` runs before the try block — so the
result is neither a returned string nor a `TerminalError`. -/
theorem C2_counterexample :
    st0.run "cat \x22x" = (RunResult.valueError "No closing quotation", st0) := rfl

/-- C2 as amended: for every input line that tokenizes successfully,
`run` either returns a result string or raises a `TerminalError`; no other
exception escapes the dispatch (errors of the host operations are caught by
the catch-all and re-raised as `TerminalError` with the original message). -/
theorem C2_uniform_errors (st : Terminal) (line : String) (ts : List String)
    (h : shlexSplit line = Except.ok ts) :
    (∃ s, (st.run line).1 = RunResult.ok s) ∨
    (∃ e, (st.run line).1 = RunResult.terminalError e) := by
  cases ts with
  | nil =>
      rw [run_empty st line h]
      exact Or.inl ⟨"", rfl⟩
  | cons cmd args =>
      rw [run_eq_tokens st line cmd args h]
      exact runTokens_shape st cmd args

/-- Witness for C2 as amended, at the line `cat /etc` (which tokenizes and
then raises a `TerminalError`). -/
theorem C2_uniform_errors_witness :
    (∃ s, (st0.run "cat /etc").1 = RunResult.ok s) ∨
    (∃ e, (st0.run "cat /etc").1 = RunResult.terminalError e) :=
  C2_uniform_errors st0 "cat /etc" ["cat", "/etc"] (by decide)

/-- C5: a successful `mkdir` leaves every prefix of its resolved target —
the target itself and all intermediate directories — existing as a
directory, and it is idempotent: running the same `mkdir` again from the
resulting state succeeds with the same confirmation and the same state
(so running it twice equals running it once, and invoking it on an
existing directory changes nothing). -/
theorem C5_mkdir_parents_idempotent (st : Terminal) (path s : String) (st2 : Terminal)
    (h : st.mkdir path = Except.ok (s, st2)) :
    (∃ p, st.resolve_path path = Except.ok p ∧
      ∀ q, q <+: p → fsIsDir st2.fs q = true)
    ∧ st2.mkdir path = Except.ok (s, st2) := by
  rcases mkdir_ok st path s st2 h with ⟨p, fs2, hres, hmk, hs, hst2⟩
  subst hst2
  subst hs
  constructor
  · exact ⟨p, hres, fun q hq => fsMkdirp_ok_isDir st.fs p fs2 hmk q hq⟩
  · have hres2 : Terminal.resolve_path { st with fs := fs2 } path = Except.ok p := hres
    have hmk2 : fsMkdirp fs2 p = Except.ok fs2 := fsMkdirp_idem st.fs p fs2 hmk
    unfold Terminal.mkdir
    rw [hres2]
    dsimp only
    rw [hmk2]

/-- Witness for C5 at the concrete `mkdir x`. -/
theorem C5_witness :
    (∃ p, st0.resolve_path "x" = Except.ok p ∧
      ∀ q, q <+: p →
        fsIsDir ([(["s", "x"], Entry.dirE), (["s"], Entry.dirE)] : FS) q = true)
    ∧ Terminal.mkdir
        { st0 with fs := [(["s", "x"], Entry.dirE), (["s"], Entry.dirE)] } "x" =
      Except.ok ("Created: x",
        { st0 with fs := [(["s", "x"], Entry.dirE), (["s"], Entry.dirE)] }) :=
  C5_mkdir_parents_idempotent st0 "x" "Created: x"
    { st0 with fs := [(["s", "x"], Entry.dirE), (["s"], Entry.dirE)] } rfl

/-- C6: on a resolved path, `rm` fails with the NotFound `TerminalError`
when the target is absent (for either value of the recursive flag); on a
directory with `recursive = false` it fails with `rmdir`'s
directory-not-empty `OSError` (surfaced by `run`'s catch-all) exactly when
the directory is non-empty — the error carries no new state, so the
directory is left intact — and succeeds, erasing just the directory entry,
when it is empty; with `recursive = true` it removes the entire subtree, so
no path at or below the target remains. -/
theorem C6_rm_spec (st : Terminal) (path : String) (p : List String)
    (hres : st.resolve_path path = Except.ok p) :
    (fsExists st.fs p = false →
        ∀ r, st.rm path r = Except.error "No such file or directory")
    ∧ (fsIsDir st.fs p = true → fsHasDesc st.fs p = true →
        st.rm path false =
          Except.error ("[Errno 39] Directory not empty: " ++ squote (absStr p)))
    ∧ (fsIsDir st.fs p = true → fsHasDesc st.fs p = false →
        st.rm path false = Except.ok ("Removed directory: " ++ relStr st.root p,
          { st with fs := fsErase st.fs p }))
    ∧ (fsIsDir st.fs p = true →
        st.rm path true = Except.ok ("Removed directory tree: " ++ relStr st.root p,
          { st with fs := fsRemoveSubtree st.fs p })
        ∧ ∀ q, p <+: q → fsLookup (fsRemoveSubtree st.fs p) q = none) := by
  refine ⟨?_, ?_, ?_, ?_⟩
  · intro hex r
    unfold Terminal.rm
    rw [hres]
    dsimp only
    rw [if_pos hex]
  · intro hdir hdesc
    have hex := fsExists_of_isDir st.fs p hdir
    unfold Terminal.rm
    rw [hres]
    dsimp only
    rw [if_neg (by simp [hex]), if_pos hdir, if_neg (by simp), if_pos hdesc]
  · intro hdir hdesc
    have hex := fsExists_of_isDir st.fs p hdir
    unfold Terminal.rm
    rw [hres]
    dsimp only
    rw [if_neg (by simp [hex]), if_pos hdir, if_neg (by simp), if_neg (by simp [hdesc])]
  · intro hdir
    have hex := fsExists_of_isDir st.fs p hdir
    constructor
    · unfold Terminal.rm
      rw [hres]
      dsimp only
      rw [if_neg (by simp [hex]), if_pos hdir, if_pos rfl]
    · exact fun q hq => fsLookup_removeSubtree st.fs p q hq

/-- Witness for C6 on a sandbox with a non-empty directory `d` (holding the
file `d/f`) and an empty directory `e`. -/
theorem C6_witness :
    st1.rm "q" true = Except.error "No such file or directory"
    ∧ st1.rm "d" false = Except.error "[Errno 39] Directory not empty: \x27/s/d\x27"
    ∧ st1.rm "e" false = Except.ok ("Removed directory: e",
        { st1 with fs := fsErase st1.fs ["s", "e"] })
    ∧ st1.rm "d" true = Except.ok ("Removed directory tree: d",
        { st1 with fs := fsRemoveSubtree st1.fs ["s", "d"] })
    ∧ fsLookup (fsRemoveSubtree st1.fs ["s", "d"]) ["s", "d", "f"] = none := by
  refine ⟨?_, ?_, ?_, ?_, ?_⟩
  · exact (C6_rm_spec st1 "q" ["s", "q"] (by decide)).1 (by decide) true
  · exact (C6_rm_spec st1 "d" ["s", "d"] (by decide)).2.1 (by decide) (by decide)
  · exact (C6_rm_spec st1 "e" ["s", "e"] (by decide)).2.2.1 (by decide) (by decide)
  · exact ((C6_rm_spec st1 "d" ["s", "d"] (by decide)).2.2.2 (by decide)).1
  · exact ((C6_rm_spec st1 "d" ["s", "d"] (by decide)).2.2.2 (by decide)).2
      ["s", "d", "f"] (by decide)

/-- C7: on a resolved path whose parent chain holds no regular file, `touch`
on an existing file succeeds and leaves the file's content unchanged (only
the modification time, which the filesystem model does not track, is
updated), and `touch` on an absent path succeeds, creates any missing
parent directories, and creates an empty file. -/
theorem C7_touch_spec (st : Terminal) (path : String) (p : List String)
    (hres : st.resolve_path path = Except.ok p)
    (hpar : ∀ q, q <+: p.dropLast → fsIsFile st.fs q = false) :
    (∀ c, fsLookup st.fs p = some (Entry.fileE c) →
        ∃ st2, st.touch path = Except.ok ("Touched: " ++ relStr st.root p, st2)
          ∧ fsLookup st2.fs p = some (Entry.fileE c))
    ∧ (fsExists st.fs p = false →
        ∃ st2, st.touch path = Except.ok ("Touched: " ++ relStr st.root p, st2)
          ∧ fsLookup st2.fs p = some (Entry.fileE "")
          ∧ ∀ q, q <+: p.dropLast → fsIsDir st2.fs q = true) := by
  have hfile : ¬ (fsIsFile st.fs p.dropLast = true) := by
    rw [hpar p.dropLast (List.prefix_refl p.dropLast)]
    simp
  have hany : ¬ (p.dropLast.inits.any
      (fun q => (!(decide (q = p.dropLast))) && fsIsFile st.fs q) = true) := by
    rw [List.any_eq_true]
    push_neg
    intro q hq hcon
    rw [Bool.and_eq_true] at hcon
    rw [hpar q ((List.mem_inits q p.dropLast).mp hq)] at hcon
    exact absurd hcon.2 (by simp)
  have hmk : fsMkdirp st.fs p.dropLast =
      Except.ok (addDirs st.fs p.dropLast.inits) := by
    unfold fsMkdirp
    rw [if_neg hany, if_neg hfile]
  constructor
  · intro c hc
    have hpne : ¬ p = [] := by
      intro hp
      subst hp
      have hfl := hpar [] List.nil_prefix
      unfold fsIsFile at hfl
      rw [hc] at hfl
      cases hfl
    have hlk1 : fsLookup (addDirs st.fs p.dropLast.inits) p = fsLookup st.fs p :=
      addDirs_lookup_not_mem p.dropLast.inits st.fs p (not_mem_inits_dropLast p hpne)
    have hex1 : fsExists (addDirs st.fs p.dropLast.inits) p = true := by
      unfold fsExists
      rw [hlk1, hc]
      simp
    refine ⟨{ st with fs := addDirs st.fs p.dropLast.inits }, ?_, ?_⟩
    · unfold Terminal.touch
      rw [hres]
      dsimp only
      rw [hmk]
      dsimp only
      rw [if_pos hex1]
    · rw [hlk1, hc]
  · intro hex
    have hpne : ¬ p = [] := by
      intro hp
      subst hp
      unfold fsExists at hex
      simp at hex
    have hnone : fsLookup st.fs p = none := by
      cases hlook : fsLookup st.fs p with
      | none => rfl
      | some e =>
          unfold fsExists at hex
          rw [hlook] at hex
          simp at hex
    have hlk1 : fsLookup (addDirs st.fs p.dropLast.inits) p = fsLookup st.fs p :=
      addDirs_lookup_not_mem p.dropLast.inits st.fs p (not_mem_inits_dropLast p hpne)
    have hex1 : ¬ (fsExists (addDirs st.fs p.dropLast.inits) p = true) := by
      unfold fsExists
      rw [hlk1, hnone]
      simp [hpne]
    refine ⟨{ st with
      fs := fsInsert (addDirs st.fs p.dropLast.inits) p (Entry.fileE "") }, ?_, ?_, ?_⟩
    · unfold Terminal.touch
      rw [hres]
      dsimp only
      rw [hmk]
      dsimp only
      rw [if_neg hex1]
    · show fsLookup (fsInsert (addDirs st.fs p.dropLast.inits) p (Entry.fileE "")) p =
        some (Entry.fileE "")
      rw [fsLookup_insert, if_pos rfl]
    · intro q hq
      have hqp : ¬ q = p := by
        intro hqe
        subst hqe
        have hlen := hq.length_le
        rw [List.length_dropLast] at hlen
        have hpos : 0 < q.length := List.length_pos.mpr hpne
        omega
      show fsIsDir (fsInsert (addDirs st.fs p.dropLast.inits) p (Entry.fileE "")) q = true
      rw [fsIsDir_insert_ne _ _ _ _ hqp]
      exact addDirs_isDir_of_mem p.dropLast.inits st.fs q
        ((List.mem_inits q p.dropLast).mpr hq) (hpar q hq)

/-- Witness for C7: touching the existing file `d/f` (content preserved)
and the absent path `d/n` (empty file created) in the concrete sandbox. -/
theorem C7_witness :
    (∃ st2, st1.touch "d/f" = Except.ok ("Touched: d/f", st2)
      ∧ fsLookup st2.fs ["s", "d", "f"] = some (Entry.fileE "hi"))
    ∧ (∃ st2, st1.touch "d/n" = Except.ok ("Touched: d/n", st2)
      ∧ fsLookup st2.fs ["s", "d", "n"] = some (Entry.fileE "")) := by
  have hpar : ∀ q, q <+: ["s", "d"] → fsIsFile st1.fs q = false := by
    intro q hq
    have hm : q ∈ (["s", "d"] : List String).inits := (List.mem_inits q _).mpr hq
    fin_cases hm <;> decide
  constructor
  · exact (C7_touch_spec st1 "d/f" ["s", "d", "f"] (by decide) hpar).1 "hi" (by decide)
  · rcases (C7_touch_spec st1 "d/n" ["s", "d", "n"] (by decide)
      hpar).2 (by decide) with ⟨st2, h1, h2, h3⟩
    exact ⟨st2, h1, h2⟩

/-- C8: from any state at the sandbox root (with no stray regular file on
the root chain or at the target), `mkdir x` then `cd x` makes `pwd` report
`/x`, and a subsequent `cd ..` brings `pwd` back to `/`; and in general
`pwd` reports the working directory relative to the root with a leading
`/` (the root itself reporting `/`), i.e. it equals `/` joined with the
components of the working directory below the root. -/
theorem C8_roundtrip_pwd (st : Terminal) (hcwd : st.cwd = st.root)
    (h1 : ∀ q, q <+: st.root → fsIsFile st.fs q = false)
    (h2 : fsIsFile st.fs (st.root ++ ["x"]) = false) :
    (∃ stA stB stC,
      st.run "mkdir x" = (RunResult.ok "Created: x", stA)
      ∧ stA.run "cd x" = (RunResult.ok "/x", stB)
      ∧ stB.pwd = "/x"
      ∧ stB.run "cd .." = (RunResult.ok "/", stC)
      ∧ stC.pwd = "/")
    ∧ (∀ t : Terminal, t.root <+: t.cwd →
        t.pwd = "/" ++ joinSep "/" (t.cwd.drop t.root.length)) := by
  have hpwd : ∀ t : Terminal, t.root <+: t.cwd →
      t.pwd = "/" ++ joinSep "/" (t.cwd.drop t.root.length) := by
    intro t hpre
    unfold Terminal.pwd
    by_cases h : t.cwd = t.root
    · rw [if_pos h, h, List.drop_length]
      rfl
    · rw [if_neg h]
  refine ⟨?_, hpwd⟩
  have hany : ¬ ((st.root ++ ["x"]).inits.any
      (fun q => (!(decide (q = st.root ++ ["x"]))) && fsIsFile st.fs q) = true) := by
    rw [List.any_eq_true]
    push_neg
    intro q hqmem hcon
    rw [Bool.and_eq_true] at hcon
    obtain ⟨hne, hfile⟩ := hcon
    have hqpre := (List.mem_inits q _).mp hqmem
    rcases List.prefix_concat_iff.mp hqpre with heq | hpre2
    · rw [heq] at hne
      simp at hne
    · rw [h1 q hpre2] at hfile
      cases hfile
  have hfileP : ¬ (fsIsFile st.fs (st.root ++ ["x"]) = true) := by
    rw [h2]
    simp
  have hmkc : fsMkdirp st.fs (st.root ++ ["x"]) =
      Except.ok (addDirs st.fs (st.root ++ ["x"]).inits) := by
    unfold fsMkdirp
    rw [if_neg hany, if_neg hfileP]
  have hres := resolve_single_x st hcwd
  have hmsg : relStr st.root (st.root ++ ["x"]) = "x" := by
    unfold relStr
    dsimp only
    rw [List.drop_left]
    decide
  have hmkeq : st.mkdir "x" = Except.ok ("Created: x",
      { st with fs := addDirs st.fs (st.root ++ ["x"]).inits }) := by
    unfold Terminal.mkdir
    rw [hres]
    dsimp only
    rw [hmkc]
    dsimp only
    rw [hmsg]
    rfl
  have hrun1 : st.run "mkdir x" = (RunResult.ok "Created: x",
      { st with fs := addDirs st.fs (st.root ++ ["x"]).inits }) := by
    rw [run_eq_tokens st "mkdir x" "mkdir" ["x"] (by decide),
      runTokens_mkdir_eq, hmkeq]
    rfl
  refine ⟨{ st with fs := addDirs st.fs (st.root ++ ["x"]).inits }, ?_⟩
  have hresA : Terminal.resolve_path
      { st with fs := addDirs st.fs (st.root ++ ["x"]).inits } "x" =
      Except.ok (st.root ++ ["x"]) := resolve_single_x _ hcwd
  have hdir1 : fsIsDir (addDirs st.fs (st.root ++ ["x"]).inits) (st.root ++ ["x"]) = true :=
    fsMkdirp_ok_isDir st.fs _ _ hmkc _ (List.prefix_refl _)
  have hcdeq : Terminal.cd { st with fs := addDirs st.fs (st.root ++ ["x"]).inits } "x" =
      Except.ok (Terminal.pwd { st with
                                cwd := st.root ++ ["x"],
                                fs := addDirs st.fs (st.root ++ ["x"]).inits },
        { st with
          cwd := st.root ++ ["x"],
          fs := addDirs st.fs (st.root ++ ["x"]).inits }) := by
    unfold Terminal.cd
    rw [hresA]
    dsimp only
    rw [if_neg (by rw [hdir1]; decide)]
  have hpreB : st.root <+: st.root ++ ["x"] := List.prefix_append _ _
  have hpwdB : Terminal.pwd { st with
      cwd := st.root ++ ["x"],
      fs := addDirs st.fs (st.root ++ ["x"]).inits } = "/x" := by
    rw [hpwd { st with cwd := st.root ++ ["x"], fs := addDirs st.fs (st.root ++ ["x"]).inits } hpreB]
    dsimp only
    rw [List.drop_left]
    decide
  have hrun2 : Terminal.run { st with fs := addDirs st.fs (st.root ++ ["x"]).inits }
      "cd x" = (RunResult.ok "/x",
        { st with
          cwd := st.root ++ ["x"],
          fs := addDirs st.fs (st.root ++ ["x"]).inits }) := by
    rw [run_eq_tokens _ "cd x" "cd" ["x"] (by decide), runTokens_cd_eq]
    rw [show (["x"] : List String).headD "." = "x" from rfl]
    rw [hcdeq, hpwdB]
    rfl
  refine ⟨{ st with
    cwd := st.root ++ ["x"],
    fs := addDirs st.fs (st.root ++ ["x"]).inits }, ?_⟩
  have hresB : Terminal.resolve_path { st with
      cwd := st.root ++ ["x"],
      fs := addDirs st.fs (st.root ++ ["x"]).inits } ".." =
      Except.ok st.root := resolve_dotdot _ rfl
  have hdir2 : fsIsDir (addDirs st.fs (st.root ++ ["x"]).inits) st.root = true :=
    fsMkdirp_ok_isDir st.fs _ _ hmkc _ (List.prefix_append _ _)
  have hcdeq2 : Terminal.cd { st with
      cwd := st.root ++ ["x"],
      fs := addDirs st.fs (st.root ++ ["x"]).inits } ".." =
      Except.ok (Terminal.pwd { st with
                                cwd := st.root,
                                fs := addDirs st.fs (st.root ++ ["x"]).inits },
        { st with
          cwd := st.root,
          fs := addDirs st.fs (st.root ++ ["x"]).inits }) := by
    unfold Terminal.cd
    rw [hresB]
    dsimp only
    rw [if_neg (by rw [hdir2]; decide)]
  have hpwdC : Terminal.pwd { st with
      cwd := st.root,
      fs := addDirs st.fs (st.root ++ ["x"]).inits } = "/" := by
    unfold Terminal.pwd
    rw [if_pos rfl]
  have hrun3 : Terminal.run { st with
      cwd := st.root ++ ["x"],
      fs := addDirs st.fs (st.root ++ ["x"]).inits } "cd .." = (RunResult.ok "/",
        { st with
          cwd := st.root,
          fs := addDirs st.fs (st.root ++ ["x"]).inits }) := by
    rw [run_eq_tokens _ "cd .." "cd" [".."] (by decide), runTokens_cd_eq]
    rw [show ([".."] : List String).headD "." = ".." from rfl]
    rw [hcdeq2, hpwdC]
    rfl
  exact ⟨{ st with
      cwd := st.root,
      fs := addDirs st.fs (st.root ++ ["x"]).inits },
    hrun1, hrun2, hpwdB, hrun3, hpwdC⟩

/-- Witness for C8 at the concrete sandbox rooted at `/s`. -/
theorem C8_witness :
    ∃ stA stB stC,
      st0.run "mkdir x" = (RunResult.ok "Created: x", stA)
      ∧ stA.run "cd x" = (RunResult.ok "/x", stB)
      ∧ stB.pwd = "/x"
      ∧ stB.run "cd .." = (RunResult.ok "/", stC)
      ∧ stC.pwd = "/" := by
  have hpar : ∀ q, q <+: st0.root → fsIsFile st0.fs q = false := by
    intro q hq
    have hm : q ∈ (st0.root : List String).inits := (List.mem_inits q _).mpr hq
    fin_cases hm <;> decide
  exact (C8_roundtrip_pwd st0 (by decide) hpar (by decide)).1

/-- C9: for every command with required operands, a line that tokenizes to
that command with fewer argument tokens than required makes `run` raise the
command's missing-operand `TerminalError` with the state unchanged — the
check happens before any filesystem access or mutation (the alias `del`
reports `rm`'s message, and `rm -r` without a target is also a missing
operand). -/
theorem C9_missing_operands (st : Terminal) (line : String) :
    (shlexSplit line = Except.ok ["mkdir"] →
      st.run line = (RunResult.terminalError "mkdir: missing operand", st))
    ∧ (shlexSplit line = Except.ok ["rm"] →
      st.run line = (RunResult.terminalError "rm: missing operand", st))
    ∧ (shlexSplit line = Except.ok ["rm", "-r"] →
      st.run line = (RunResult.terminalError "rm: missing operand", st))
    ∧ (shlexSplit line = Except.ok ["del"] →
      st.run line = (RunResult.terminalError "rm: missing operand", st))
    ∧ (shlexSplit line = Except.ok ["touch"] →
      st.run line = (RunResult.terminalError "touch: missing operand", st))
    ∧ (shlexSplit line = Except.ok ["cat"] →
      st.run line = (RunResult.terminalError "cat: missing operand", st))
    ∧ (shlexSplit line = Except.ok ["stat"] →
      st.run line = (RunResult.terminalError "stat: missing operand", st))
    ∧ (shlexSplit line = Except.ok ["mv"] →
      st.run line = (RunResult.terminalError "mv: missing operands", st))
    ∧ (∀ a, shlexSplit line = Except.ok ["mv", a] →
      st.run line = (RunResult.terminalError "mv: missing operands", st))
    ∧ (shlexSplit line = Except.ok ["cp"] →
      st.run line = (RunResult.terminalError "cp: missing operands", st))
    ∧ (∀ a, shlexSplit line = Except.ok ["cp", a] →
      st.run line = (RunResult.terminalError "cp: missing operands", st)) := by
  refine ⟨fun h => ?_, fun h => ?_, fun h => ?_, fun h => ?_, fun h => ?_, fun h => ?_,
    fun h => ?_, fun h => ?_, fun a h => ?_, fun h => ?_, fun a h => ?_⟩
  all_goals rw [run_eq_tokens st line _ _ h]
  · rfl
  · rfl
  · rfl
  · rfl
  · rfl
  · rfl
  · rfl
  · rfl
  · delta runTokens
    rw [if_neg (by decide), if_neg (by decide), if_neg (by decide), if_neg (by decide),
      if_neg (by decide), if_neg (by decide), if_neg (by decide), if_pos rfl]
  · rfl
  · delta runTokens
    rw [if_neg (by decide), if_neg (by decide), if_neg (by decide), if_neg (by decide),
      if_neg (by decide), if_neg (by decide), if_neg (by decide), if_neg (by decide),
      if_pos rfl]

/-- Witness for C9 at the concrete sandbox and the lines `mkdir`, `rm -r`
and `mv a`. -/
theorem C9_witness :
    st0.run "mkdir" = (RunResult.terminalError "mkdir: missing operand", st0)
    ∧ st0.run "rm -r" = (RunResult.terminalError "rm: missing operand", st0)
    ∧ st0.run "mv a" = (RunResult.terminalError "mv: missing operands", st0) :=
  ⟨(C9_missing_operands st0 "mkdir").1 (by decide),
   (C9_missing_operands st0 "rm -r").2.2.1 (by decide),
   (C9_missing_operands st0 "mv a").2.2.2.2.2.2.2.2.1 "a" (by decide)⟩

/-- C10: `run "cd"` with no argument is accepted, not rejected as a missing
operand: the dispatch substitutes `.`, so in any reachable state (working
directory inside the root and an existing directory) it succeeds, returns
the current `pwd`, and leaves the state — in particular the working
directory — unchanged; it behaves exactly like `run "cd ."`. -/
theorem C10_cd_no_argument (st : Terminal) (hinv : st.root <+: st.cwd)
    (hdir : fsIsDir st.fs st.cwd = true) :
    st.run "cd" = (RunResult.ok st.pwd, st) ∧ st.run "cd" = st.run "cd ." := by
  have hcd : st.cd "." = Except.ok (st.pwd, st) := by
    unfold Terminal.cd
    rw [resolve_dot st hinv]
    dsimp only
    rw [if_neg (by rw [hdir]; decide)]
  have h1 : st.run "cd" = (RunResult.ok st.pwd, st) := by
    rw [run_eq_tokens st "cd" "cd" [] (by decide), runTokens_cd_eq]
    rw [show ([] : List String).headD "." = "." from rfl, hcd]
    rfl
  have h2 : st.run "cd ." = (RunResult.ok st.pwd, st) := by
    rw [run_eq_tokens st "cd ." "cd" ["."] (by decide), runTokens_cd_eq]
    rw [show (["."] : List String).headD "." = "." from rfl, hcd]
    rfl
  exact ⟨h1, by rw [h1, h2]⟩

/-- Witness for C10 at the concrete sandbox. -/
theorem C10_witness :
    st0.run "cd" = (RunResult.ok st0.pwd, st0) ∧ st0.run "cd" = st0.run "cd ." :=
  C10_cd_no_argument st0 (by decide) (by decide)
